import Mathlib

/-!
Verification of the bi-backend document service.

This file gives a shallow embedding, in Lean, of the parts of the
bi-backend repository that the checked properties talk about:

* `src/repositories/file_text_vector_store.py` — the Qdrant-backed
  vector store (`search_hybrid`, `store_page_text`, `delete_file_vectors`);
* `src/repositories/file_and_meta.py` — the MySQL store
  (`insert_file_text_page` and the `file_text` schema);
* `src/services/file_service.py` — `upload_file` and
  `_parse_file_text_and_save`;
* `src/services/file_text_parser.py` — the OCR loop of
  `parse_document_via_ocr` with its GPU demotion logic.

External effects (database calls, the thread pool, Qdrant, the OCR
engine, random identifier draws) are modelled as explicit oracle
parameters; Python floats are modelled as rationals; raised exceptions
are modelled with `Except`/outcome types.
-/

namespace BiBackend

/-! ## Hybrid search (`file_text_vector_store.py`, `search_hybrid`, lines 357-411)

A search hit as returned by `search_semantic` / `search_keyword`: the
payload fields that the merge logic reads (`file_id`, `page_number`)
together with the per-source `score`.  Scores are Python floats in the
source; they are modelled as rationals. -/
structure Hit where
  fileId : Nat
  page : Nat
  score : ℚ
deriving DecidableEq, Repr

/-- An entry of the `merged` dict of `search_hybrid`: the copied hit
fields plus the accumulated `combined_score`. -/
structure MergedEntry where
  fileId : Nat
  page : Nat
  score : ℚ
  combinedScore : ℚ
deriving DecidableEq, Repr

/-- The merge key `(file_id, page_number)` used by `search_hybrid`. -/
abbrev MergeKey := Nat × Nat

def Hit.key (h : Hit) : MergeKey := (h.fileId, h.page)

def MergedEntry.key (e : MergedEntry) : MergeKey := (e.fileId, e.page)

/-- One step of the merge loop body of `search_hybrid` (lines 388-394 and
396-402): a Python dict keyed by `(file_id, page_number)` is modelled as
an insertion-ordered association list.  If the key is absent the hit is
copied in at the end with `combined_score = score * w`; otherwise the
existing entry's `combined_score` is incremented by `score * w`. -/
def mergedUpsert (w : ℚ) : List MergedEntry → Hit → List MergedEntry
  | [], r => [⟨r.fileId, r.page, r.score, r.score * w⟩]
  | e :: es, r =>
    if e.key = r.key then
      { e with combinedScore := e.combinedScore + r.score * w } :: es
    else
      e :: mergedUpsert w es r

/-- The full merge of `search_hybrid`: fold the semantic results with the
normalized semantic weight, then the keyword results with the normalized
keyword weight, over the (initially empty) `merged` dict. -/
def mergeResults (semW kwW : ℚ) (semanticResults keywordResults : List Hit) :
    List MergedEntry :=
  keywordResults.foldl (mergedUpsert kwW) (semanticResults.foldl (mergedUpsert semW) [])

/-- Insert an element into a descending-sorted list, after any element of
greater-or-equal `combined_score`: this is the insertion step of the
unique stable descending sort, which is how Python's
`sorted(..., key=combined_score, reverse=True)` behaves. -/
def pyInsertDesc (x : MergedEntry) : List MergedEntry → List MergedEntry
  | [] => [x]
  | y :: ys => if y.combinedScore ≤ x.combinedScore then x :: y :: ys else y :: pyInsertDesc x ys

/-- Stable descending sort by `combined_score`, modelling
`sorted(merged.values(), key=lambda x: x.get("combined_score", 0), reverse=True)`
(lines 405-409). -/
def pySortDesc : List MergedEntry → List MergedEntry
  | [] => []
  | x :: xs => pyInsertDesc x (pySortDesc xs)

/-- Normalized semantic weight (line 379):
`sem_w = semantic_weight / total if total > 0 else 0.5`. -/
def normSemW (semanticWeight keywordWeight : ℚ) : ℚ :=
  if 0 < semanticWeight + keywordWeight
  then semanticWeight / (semanticWeight + keywordWeight) else 1/2

/-- Normalized keyword weight (line 380):
`kw_w = keyword_weight / total if total > 0 else 0.5`. -/
def normKwW (semanticWeight keywordWeight : ℚ) : ℚ :=
  if 0 < semanticWeight + keywordWeight
  then keywordWeight / (semanticWeight + keywordWeight) else 1/2

/-- `search_hybrid` (lines 357-411).  The two underlying searches are
oracles `searchSem`, `searchKw` taking the requested result limit; the
source calls each with `limit * 2`, merges by `(file_id, page_number)`,
sorts by `combined_score` descending (stable), and truncates to
`limit`. -/
def search_hybrid (searchSem searchKw : Nat → List Hit) (limit : Nat)
    (semanticWeight keywordWeight : ℚ) : List MergedEntry :=
  let semW := normSemW semanticWeight keywordWeight
  let kwW := normKwW semanticWeight keywordWeight
  let semanticResults := searchSem (limit * 2)
  let keywordResults := searchKw (limit * 2)
  let merged := mergeResults semW kwW semanticResults keywordResults
  (pySortDesc merged).take limit

/-- Look up the `combined_score` recorded for a key in the merged dict. -/
def lookupScore (k : MergeKey) : List MergedEntry → Option ℚ
  | [] => none
  | e :: es => if e.key = k then some e.combinedScore else lookupScore k es

/-- Sum of the `score` fields of the hits of a result list that carry the
given key (a well-formed result list mentions a key at most once, in
which case this is that hit's score). -/
def sumScores (k : MergeKey) : List Hit → ℚ
  | [] => 0
  | h :: hs => (if h.key = k then h.score else 0) + sumScores k hs

/-- Whether some hit of a result list carries the given key. -/
def hasKey (k : MergeKey) (l : List Hit) : Prop := ∃ h ∈ l, h.key = k

instance (k : MergeKey) (l : List Hit) : Decidable (hasKey k l) := by
  unfold hasKey; infer_instance

/-- Strict lexicographic order on merge keys: what "(fileId, page) ascending"
means for the tie-break. -/
def keyLt (a b : MergeKey) : Prop := a.1 < b.1 ∨ (a.1 = b.1 ∧ a.2 < b.2)

instance : DecidableRel keyLt := fun a b => by
  unfold keyLt; infer_instance

/-- The tie-break discipline the specification asks of `search_hybrid`
output: any two entries with equal combined score appear in ascending
`(fileId, page)` order. -/
def tiesKeyAscending (l : List MergedEntry) : Prop :=
  l.Pairwise (fun a b => a.combinedScore = b.combinedScore → keyLt a.key b.key)

instance (l : List MergedEntry) : Decidable (tiesKeyAscending l) := by
  unfold tiesKeyAscending; infer_instance

lemma MergedEntry.key_mk (a b : Nat) (c d : ℚ) :
    (MergedEntry.mk a b c d).key = (a, b) := rfl

lemma Hit.key_eq (h : Hit) : h.key = (h.fileId, h.page) := rfl

lemma lookupScore_mergedUpsert (w : ℚ) (acc : List MergedEntry) (r : Hit) (k : MergeKey) :
    lookupScore k (mergedUpsert w acc r) =
      if r.key = k then some ((lookupScore k acc).getD 0 + r.score * w)
      else lookupScore k acc := by
  induction acc with
  | nil =>
    by_cases hk : r.key = k
    · rw [Hit.key_eq] at hk
      simp [mergedUpsert, lookupScore, MergedEntry.key_mk, hk, Hit.key_eq]
    · rw [Hit.key_eq] at hk
      simp [mergedUpsert, lookupScore, MergedEntry.key_mk, hk, Hit.key_eq]
  | cons e es ih =>
    simp only [mergedUpsert]
    by_cases he : e.key = r.key
    · rw [if_pos he]
      have hkey : ({ e with combinedScore := e.combinedScore + r.score * w } : MergedEntry).key
          = e.key := rfl
      by_cases hk : e.key = k
      · have hrk : r.key = k := he.symm.trans hk
        simp [lookupScore, hkey, hk, hrk]
      · have hrk : ¬ r.key = k := fun h => hk (he.trans h)
        simp [lookupScore, hkey, hk, hrk]
    · rw [if_neg he]
      by_cases hk : e.key = k
      · have hrk : ¬ r.key = k := fun h => he (hk.trans h.symm)
        simp [lookupScore, hk, hrk]
      · simp [lookupScore, hk, ih]

lemma hasKey_cons {k : MergeKey} {h : Hit} {t : List Hit} :
    hasKey k (h :: t) ↔ h.key = k ∨ hasKey k t := by
  simp [hasKey]

lemma lookupScore_foldl (w : ℚ) (l : List Hit) (acc : List MergedEntry) (k : MergeKey) :
    lookupScore k (l.foldl (mergedUpsert w) acc) =
      if hasKey k l ∨ (lookupScore k acc).isSome
      then some ((lookupScore k acc).getD 0 + sumScores k l * w)
      else none := by
  induction l generalizing acc with
  | nil =>
    cases hl : lookupScore k acc with
    | none => simp [hasKey, hl]
    | some s => simp [hasKey, hl, sumScores]
  | cons h t ih =>
    rw [List.foldl_cons, ih, lookupScore_mergedUpsert]
    by_cases hk : h.key = k
    · simp only [hk, if_pos rfl, hasKey_cons, sumScores, Option.isSome_some, or_true,
        if_true, Option.getD_some]
      rw [if_pos (Or.inl (Or.inl trivial))]
      congr 1
      ring
    · simp [hk, hasKey_cons, sumScores]

lemma sumScores_eq_zero {k : MergeKey} {l : List Hit} (h : ¬ hasKey k l) :
    sumScores k l = 0 := by
  induction l with
  | nil => rfl
  | cons x xs ih =>
    rw [hasKey_cons] at h
    push_neg at h
    simp [sumScores, h.1, ih h.2]

/-- Combined-score arithmetic of the merge: a key's `combined_score` in the
merged dict is the weighted sum, over the two sources, of the scores the key
carries in each source. -/
lemma lookupScore_mergeResults (semW kwW : ℚ) (sems kws : List Hit) (k : MergeKey) :
    lookupScore k (mergeResults semW kwW sems kws) =
      if hasKey k sems ∨ hasKey k kws
      then some (sumScores k sems * semW + sumScores k kws * kwW)
      else none := by
  unfold mergeResults
  rw [lookupScore_foldl, lookupScore_foldl]
  by_cases hs : hasKey k sems
  · simp [lookupScore, hs]
  · simp [lookupScore, hs, sumScores_eq_zero hs]

lemma mem_pyInsertDesc {z x : MergedEntry} {l : List MergedEntry} :
    z ∈ pyInsertDesc x l ↔ z = x ∨ z ∈ l := by
  induction l with
  | nil => simp [pyInsertDesc]
  | cons y ys ih =>
    by_cases h : y.combinedScore ≤ x.combinedScore
    · simp [pyInsertDesc, h]
    · simp [pyInsertDesc, h, ih, or_left_comm]

lemma pairwise_pyInsertDesc {x : MergedEntry} {l : List MergedEntry}
    (hl : l.Pairwise (fun a b => b.combinedScore ≤ a.combinedScore)) :
    (pyInsertDesc x l).Pairwise (fun a b => b.combinedScore ≤ a.combinedScore) := by
  induction l with
  | nil => simp [pyInsertDesc]
  | cons y ys ih =>
    rcases List.pairwise_cons.mp hl with ⟨hy, hys⟩
    by_cases h : y.combinedScore ≤ x.combinedScore
    · rw [pyInsertDesc, if_pos h]
      refine List.pairwise_cons.mpr ⟨?_, hl⟩
      intro z hz
      rcases List.mem_cons.mp hz with rfl | hz'
      · exact h
      · exact le_trans (hy z hz') h
    · rw [pyInsertDesc, if_neg h]
      refine List.pairwise_cons.mpr ⟨?_, ih hys⟩
      intro z hz
      rcases mem_pyInsertDesc.mp hz with rfl | hz'
      · exact le_of_not_le h
      · exact hy z hz'

lemma pairwise_pySortDesc (l : List MergedEntry) :
    (pySortDesc l).Pairwise (fun a b => b.combinedScore ≤ a.combinedScore) := by
  induction l with
  | nil => simp [pySortDesc]
  | cons x xs ih => exact pairwise_pyInsertDesc ih

/-- C3: `searchHybrid` normalizes the two weights to sum to 1 (0.5/0.5 when
both are zero), calls both underlying searches with `2 × limit`, and gives
each `(fileId, page)` key a combined score equal to the sum, over the
sources in which it appears, of that source's score times the source's
normalized weight; in particular weights 0.7/0.3 with semantic score 0.9
and keyword score 0.8 combine to 0.87, and a keyword-only hit of score 0.8
yields 0.24. -/
theorem search_hybrid_merge_arithmetic (f g : Nat → List Hit) (limit : Nat) (sw kw : ℚ) :
    (search_hybrid f g limit sw kw
      = (pySortDesc (mergeResults (normSemW sw kw) (normKwW sw kw)
          (f (limit * 2)) (g (limit * 2)))).take limit)
    ∧ (0 ≤ sw → 0 ≤ kw → ¬(sw = 0 ∧ kw = 0) →
        normSemW sw kw + normKwW sw kw = 1)
    ∧ (normSemW 0 0 = 1/2 ∧ normKwW 0 0 = 1/2)
    ∧ (∀ k : MergeKey,
        lookupScore k (mergeResults (normSemW sw kw) (normKwW sw kw)
            (f (limit * 2)) (g (limit * 2)))
          = if hasKey k (f (limit * 2)) ∨ hasKey k (g (limit * 2))
            then some (sumScores k (f (limit * 2)) * normSemW sw kw
                      + sumScores k (g (limit * 2)) * normKwW sw kw)
            else none)
    ∧ lookupScore (1, 1) (mergeResults (normSemW (7/10) (3/10)) (normKwW (7/10) (3/10))
        [⟨1, 1, 9/10⟩] [⟨1, 1, 8/10⟩]) = some (87/100)
    ∧ lookupScore (2, 5) (mergeResults (normSemW (7/10) (3/10)) (normKwW (7/10) (3/10))
        [] [⟨2, 5, 8/10⟩]) = some (24/100) := by
  refine ⟨rfl, ?_, ?_, fun k => lookupScore_mergeResults _ _ _ _ k, ?_, ?_⟩
  · intro hsw hkw hnz
    have hpos : 0 < sw + kw := by
      rcases lt_or_eq_of_le hsw with h | h
      · linarith
      · rcases lt_or_eq_of_le hkw with h' | h'
        · linarith
        · exact absurd ⟨h.symm, h'.symm⟩ hnz
    rw [normSemW, normKwW, if_pos hpos, if_pos hpos, div_add_div_same,
      div_self (ne_of_gt hpos)]
  · constructor <;> norm_num [normSemW, normKwW]
  · rw [lookupScore_mergeResults]
    norm_num [hasKey, sumScores, Hit.key_eq, normSemW, normKwW]
  · rw [lookupScore_mergeResults]
    norm_num [hasKey, sumScores, Hit.key_eq, normSemW, normKwW]

/-- Witness for `search_hybrid_merge_arithmetic` at concrete inputs: the
normalization conjunct instantiated at weights 0.7/0.3. -/
theorem search_hybrid_merge_arithmetic_witness :
    normSemW (7/10) (3/10) + normKwW (7/10) (3/10) = 1 :=
  (search_hybrid_merge_arithmetic (fun _ => []) (fun _ => []) 10 (7/10) (3/10)).2.1
    (by norm_num) (by norm_num) (by norm_num)

/-- C4 (amended): the list returned by `searchHybrid` is sorted in
descending order of combined score and truncated to at most `limit`
entries; ties, however, are kept in dict insertion order (semantic results
first), not re-ordered by `(fileId, page)`. -/
theorem search_hybrid_sorted_truncated (f g : Nat → List Hit) (limit : Nat) (sw kw : ℚ) :
    (search_hybrid f g limit sw kw).Pairwise
      (fun a b => b.combinedScore ≤ a.combinedScore)
    ∧ (search_hybrid f g limit sw kw).length ≤ limit := by
  constructor
  · exact (pairwise_pySortDesc _).sublist (List.take_sublist _ _)
  · simp [search_hybrid, List.length_take]

/-- Counterexample to C4 as stated: with equal weights, a semantic-only
hit on key `(2, 1)` and a keyword-only hit on key `(1, 1)` with the same
score tie at combined score 0.4, and `searchHybrid` returns `(2, 1)`
before `(1, 1)` (dict insertion order), so ties are not broken by
`(fileId, page)` ascending. -/
theorem search_hybrid_tiebreak_counterexample :
    ¬ tiesKeyAscending (search_hybrid (fun _ => [⟨2, 1, 4/5⟩])
        (fun _ => [⟨1, 1, 4/5⟩]) 10 (1/2) (1/2)) := by
  have h : search_hybrid (fun _ => [⟨2, 1, 4/5⟩]) (fun _ => [⟨1, 1, 4/5⟩]) 10 (1/2) (1/2)
      = [⟨2, 1, 4/5, 2/5⟩, ⟨1, 1, 4/5, 2/5⟩] := by
    norm_num [search_hybrid, mergeResults, mergedUpsert, pySortDesc, pyInsertDesc,
      normSemW, normKwW, MergedEntry.key, Hit.key]
  rw [tiesKeyAscending, h]
  intro hc
  have h12 := (List.pairwise_cons.mp hc).1 _ (List.mem_cons_self _ _) rfl
  rcases h12 with h' | ⟨h', _⟩
  · exact absurd h' (by norm_num [MergedEntry.key])
  · exact absurd h' (by norm_num [MergedEntry.key])

/-! ## The `file_text` table (`file_and_meta.py`)

`_create_tables` (lines 84-93) declares `file_text` with
`id BIGINT PRIMARY KEY AUTO_INCREMENT`, columns `file_id`, `page_number`,
`parsed_text`, and a foreign key on `file_id` — and no unique key on
`(file_id, page_number)`.  MySQL's `INSERT ... ON DUPLICATE KEY UPDATE`
falls back to the `UPDATE` branch exactly when the candidate row would
violate some unique index of the table; the only unique index here is the
auto-increment primary key `id`, whose candidate value is always fresh. -/
structure FileTextRow where
  id : Nat
  file_id : Nat
  page_number : Nat
  parsed_text : String
deriving DecidableEq, Repr

structure FileTextTable where
  rows : List FileTextRow
  nextId : Nat
deriving DecidableEq, Repr

/-- A fresh `file_text` table (MySQL auto-increment starts at 1). -/
def FileTextTable.empty : FileTextTable := ⟨[], 1⟩

/-- `insert_file_text_page` (lines 459-480): run
`INSERT INTO file_text (file_id, page_number, parsed_text) VALUES (...)
ON DUPLICATE KEY UPDATE parsed_text = VALUES(parsed_text)`.
The candidate row's `id` is the table's auto-increment counter; the
`ON DUPLICATE KEY UPDATE` branch fires only if that key value collides
with an existing row's `id` (it never does), otherwise a new row is
appended.  Returns the updated table and `cursor.lastrowid`. -/
def insert_file_text_page (t : FileTextTable) (file_id page_number : Nat)
    (parsed_text : String) : FileTextTable × Nat :=
  if t.rows.any (fun r => r.id == t.nextId) then
    ({ t with rows := t.rows.map fun r =>
        if r.id == t.nextId then { r with parsed_text := parsed_text } else r }, t.nextId)
  else
    ({ rows := t.rows ++ [⟨t.nextId, file_id, page_number, parsed_text⟩],
       nextId := t.nextId + 1 }, t.nextId)

/-- C2 fails on the code: upserting page 3 of file 1 with "A" and then
with "B" leaves TWO rows for (file 1, page 3) — texts "A" and "B" — not a
single row with "B", because the `file_text` schema has no unique key on
`(file_id, page_number)` and the `ON DUPLICATE KEY UPDATE` clause
therefore never fires. -/
theorem insert_file_text_page_duplicates :
    ((insert_file_text_page (insert_file_text_page FileTextTable.empty 1 3 "A").1 1 3 "B").1.rows.filter
        fun r => r.file_id == 1 && r.page_number == 3)
      = [⟨1, 1, 3, "A"⟩, ⟨2, 1, 3, "B"⟩] := by
  rfl

/-! ## Vector store points (`file_text_vector_store.py`)

A point of the Qdrant `documents` collection: its uint64 point id and the
payload fields the delete/count filters read.  The dense and sparse
vectors and the remaining payload fields play no role in the selection
logic and are omitted. -/
structure VecPoint where
  id : Nat
  file_id : Nat
  page_number : Nat
deriving DecidableEq, Repr

/-- `store_page_text` (lines 195-263): for a nonempty text, encode the
vectors and upsert one point whose id is `int(uuid.uuid4().int % (2**63))`
— `randDraw` is the oracle for the random 128-bit `uuid4` draw — with
payload `file_id`, `page_number` (plus filename and snippet).  `opsOk`
models whether the encoding/upsert calls raise; every exception is caught
and turned into a `False` return. -/
def store_page_text (store : List VecPoint) (file_id page_number : Nat)
    (text : String) (opsOk : Bool) (randDraw : Nat) : List VecPoint × Bool :=
  if text = "" then (store, false)
  else if opsOk then (store ++ [⟨randDraw % 2 ^ 63, file_id, page_number⟩], true)
  else (store, false)

/-- `delete_file_vectors` (lines 416-464): the primary path deletes the
points whose id is in `has_id = [int(uuid.uuid5(uuid.NAMESPACE_DNS,
f"file_{file_id}_page_*").int % (2**63))]` — `uuid5Digest` is the oracle
for that MD5-based digest — and returns `True`.  Only if that call raises
(`primaryRaises`) does the fallback delete by the `file_id` payload field;
if the fallback also raises the function returns `False`. -/
def delete_file_vectors (store : List VecPoint) (file_id : Nat)
    (uuid5Digest : Nat) (primaryRaises fallbackRaises : Bool) :
    List VecPoint × Bool :=
  if primaryRaises = false then
    (store.filter fun p => p.id != uuid5Digest % 2 ^ 63, true)
  else if fallbackRaises = false then
    (store.filter fun p => p.file_id != file_id, true)
  else (store, false)

/-- C9 fails on the code: the primary delete path selects by a recomputed
synthetic `uuid5` id, not by the `file_id` payload field; since stored
point ids are independent `uuid4` draws, any stored point whose id
differs from the digest survives a `delete_file_vectors` call that
returns `True`. -/
theorem delete_file_vectors_misses_points (store : List VecPoint)
    (fid page rand digest : Nat) (text : String)
    (h1 : ¬ text = "") (h2 : rand % 2 ^ 63 ≠ digest % 2 ^ 63) :
    (store_page_text store fid page text true rand).2 = true
    ∧ (delete_file_vectors (store_page_text store fid page text true rand).1
        fid digest false false).2 = true
    ∧ (⟨rand % 2 ^ 63, fid, page⟩ : VecPoint)
        ∈ (delete_file_vectors (store_page_text store fid page text true rand).1
            fid digest false false).1 := by
  refine ⟨by simp [store_page_text, h1], by simp [delete_file_vectors], ?_⟩
  simp [store_page_text, h1, delete_file_vectors, List.mem_filter, List.mem_append]
  exact Or.inr (by simpa using h2)

/-- Witness for `delete_file_vectors_misses_points`: a single point stored
for file 7 with random id 1 survives a delete whose recomputed digest is
0, though the call reports success. -/
theorem delete_file_vectors_misses_points_witness :
    (store_page_text [] 7 1 "x" true 1).2 = true
    ∧ (delete_file_vectors (store_page_text [] 7 1 "x" true 1).1 7 0 false false).2 = true
    ∧ (⟨1 % 2 ^ 63, 7, 1⟩ : VecPoint)
        ∈ (delete_file_vectors (store_page_text [] 7 1 "x" true 1).1 7 0 false false).1 :=
  delete_file_vectors_misses_points [] 7 1 1 0 "x" (by decide) (by decide)

/-! ## File service (`file_service.py`)

The values of the `files.parsing_state` column
(`'pending','queued','parsing','done','failed'`, default `'pending'`). -/
inductive PState
  | pending
  | queued
  | parsing
  | done
  | failed
deriving DecidableEq, Repr

/-- Outcome of one `vector_store.store_page_text` call inside the parse
job: it returns `True` or `False`, or raises (the exception is caught by
the surrounding `try`). -/
inductive VecOutcome
  | retTrue
  | retFalse
  | raised
deriving DecidableEq, Repr

/-- The environment of one `_parse_file_text_and_save` job: which
repository and vector-store calls succeed, and what the Extraction
Provider returns.  `extraction` is `.error` when
`parse_document_via_ocr` raises, otherwise the page-number/text pairs of
the returned dict in iteration order. -/
structure ParseEnv where
  parsingWriteOk : Bool
  extraction : Except Unit (List (Nat × String))
  textInsertOk : Nat → Bool
  vectorAvailable : Bool
  vectorOutcome : Nat → VecOutcome
  doneWriteOk : Bool
  failedWriteOk : Bool

/-- What a `_parse_file_text_and_save` run did: the successful
`update_parsing_state` writes in order, the pages whose text reached the
`file_text` table, and the pages whose vectors reached Qdrant. -/
structure ParseRun where
  stateWrites : List PState
  savedPages : List (Nat × String)
  vectorizedPages : List Nat
deriving DecidableEq, Repr

/-- `_parse_file_text_and_save` (lines 105-184).  The state write to
`parsing` is attempted first (its failure is caught and logged); if
extraction raises, the outer handler attempts the `failed` write; on an
empty extraction the job attempts the `done` write and returns; otherwise
each nonblank page is saved to MySQL (per-page exceptions caught), each
nonblank page is sent to the vector store when one is configured
(per-page exceptions caught), and the `done` write is attempted.  Every
state write that itself raises is caught and simply missing from the
trace. -/
def parse_file_text_and_save (env : ParseEnv) : ParseRun :=
  let head := if env.parsingWriteOk then [PState.parsing] else []
  match env.extraction with
  | .error _ =>
      { stateWrites := head ++ (if env.failedWriteOk then [PState.failed] else []),
        savedPages := [], vectorizedPages := [] }
  | .ok pages =>
      if pages = [] then
        { stateWrites := head ++ (if env.doneWriteOk then [PState.done] else []),
          savedPages := [], vectorizedPages := [] }
      else
        { stateWrites := head ++ (if env.doneWriteOk then [PState.done] else []),
          savedPages :=
            pages.filter fun pt => !(pt.2.trim == "") && env.textInsertOk pt.1,
          vectorizedPages :=
            if env.vectorAvailable then
              (pages.filter fun pt =>
                !(pt.2.trim == "") && (env.vectorOutcome pt.1 == VecOutcome.retTrue)).map
                Prod.fst
            else [] }

/-- The successful state writes of a parse job do not depend on the pages'
contents, only on the extraction outcome and which state writes raise. -/
lemma parse_stateWrites (env : ParseEnv) :
    (parse_file_text_and_save env).stateWrites =
      (if env.parsingWriteOk then [PState.parsing] else []) ++
      (match env.extraction with
       | .error _ => if env.failedWriteOk then [PState.failed] else []
       | .ok _ => if env.doneWriteOk then [PState.done] else []) := by
  unfold parse_file_text_and_save
  match env.extraction with
  | .error e => rfl
  | .ok pages =>
    by_cases h0 : pages = [] <;> simp [h0]

/-- C1: assuming the two terminal `update_parsing_state` calls themselves
succeed, the job's terminal parsing_state is `done` whenever extraction
returned without raising (including zero or only-blank pages) and
`failed` exactly when the Extraction Provider raised — for every pattern
of step-3 (text persistence) and step-4 (vector upsert) failures, which
also never change the pages saved to MySQL. -/
theorem parse_terminal_state (env : ParseEnv)
    (hdone : env.doneWriteOk = true) (hfail : env.failedWriteOk = true) :
    ((∃ pages, env.extraction = .ok pages) →
      (parse_file_text_and_save env).stateWrites.getLast? = some PState.done)
    ∧ ((∃ e, env.extraction = .error e) →
      (parse_file_text_and_save env).stateWrites.getLast? = some PState.failed)
    ∧ (∀ f h,
      (parse_file_text_and_save
        { env with textInsertOk := h, vectorOutcome := f }).savedPages
        = (parse_file_text_and_save { env with textInsertOk := h }).savedPages) := by
  refine ⟨?_, ?_, ?_⟩
  · rintro ⟨pages, hp⟩
    rw [parse_stateWrites, hp, hdone]
    cases hw : env.parsingWriteOk <;> rfl
  · rintro ⟨e, hp⟩
    rw [parse_stateWrites, hp, hfail]
    cases hw : env.parsingWriteOk <;> rfl
  · intro f h
    unfold parse_file_text_and_save
    cases env.extraction with
    | error e => rfl
    | ok pages => by_cases h0 : pages = [] <;> simp [h0]

/-- Witness for `parse_terminal_state`: a job whose every text insert and
every vector upsert fails still terminates with a `done` write. -/
theorem parse_terminal_state_witness :
    (parse_file_text_and_save
      { parsingWriteOk := true, extraction := .ok [(1, "hello")],
        textInsertOk := fun _ => false, vectorAvailable := true,
        vectorOutcome := fun _ => VecOutcome.raised,
        doneWriteOk := true, failedWriteOk := true }).stateWrites.getLast?
      = some PState.done :=
  (parse_terminal_state _ rfl rfl).1 ⟨[(1, "hello")], rfl⟩

/-- Outcome of one repository call: it returns a value or raises (pymysql
errors are not caught inside `MySQLDocumentStore`, they propagate to the
caller). -/
inductive CallOut (α : Type)
  | ret (a : α)
  | raised
deriving DecidableEq, Repr

/-- The environment of one `upload_file` call: the outcome of each
repository call it makes, and whether the two guarded operations
(`update_parsing_state('queued')`, `thread_pool.submit`) raise. -/
structure UploadEnv where
  metaResult : CallOut Nat
  blobResult : CallOut Nat
  rollbackDelete : CallOut Bool
  countResult : CallOut Nat
  queuedWriteOk : Bool
  submitOk : Bool
  revertWriteOk : Bool

/-- The observable steps of an `upload_file` call, in order: rows created
or deleted in MySQL, successful `parsing_state` writes, and the job
submission to the thread pool. -/
inductive UpEv
  | insertMeta (id : Nat)
  | insertBlob (fileId blobId : Nat)
  | deleteFileRow (id : Nat)
  | writeState (id : Nat) (s : PState)
  | submitJob (id : Nat)
deriving DecidableEq, Repr

/-- How `upload_file` ends: normal return (with the `parsing_scheduled`
flag), one of its `FileServiceError`s, the `QueueFullError`, or an
uncaught repository exception propagating out. -/
inductive UploadResult
  | ok (fileId : Nat) (parsingScheduled : Bool)
  | errFilename
  | errMeta
  | errBlob
  | errQueueFull
  | repoRaised
deriving DecidableEq, Repr

/-- `upload_file` (lines 42-103).  `_validate_filename` rejects an empty
or over-255-character name; `insert_file_metadata` creates the `files`
row (schema default `parsing_state = 'pending'`); a falsy id raises
`FileServiceError`.  A falsy `insert_file_blob` id triggers a rollback
`delete_file` whose own failure is swallowed, then `FileServiceError`;
an exception from `insert_file_blob` itself is not caught.  The queue
count is read failing open to 0; at `count >= 5` a `QueueFullError` is
raised before any state write.  Otherwise the `queued` write is
attempted (failure caught), the job is submitted, and if submission
raises the state is reverted to `pending` (failure caught again). -/
def upload_file (filename : String) (env : UploadEnv) : List UpEv × UploadResult :=
  if filename = "" ∨ 255 < filename.length then ([], .errFilename)
  else
    match env.metaResult with
    | .raised => ([], .repoRaised)
    | .ret fileId =>
      let t0 := [UpEv.insertMeta fileId]
      if fileId = 0 then (t0, .errMeta)
      else
        match env.blobResult with
        | .raised => (t0, .repoRaised)
        | .ret blobId =>
          if blobId = 0 then
            match env.rollbackDelete with
            | .ret _ => (t0 ++ [UpEv.deleteFileRow fileId], .errBlob)
            | .raised => (t0, .errBlob)
          else
            let t1 := t0 ++ [UpEv.insertBlob fileId blobId]
            let currentQueue := match env.countResult with
              | .ret n => n
              | .raised => 0
            if 5 ≤ currentQueue then (t1, .errQueueFull)
            else
              let t2 := t1 ++ (if env.queuedWriteOk
                then [UpEv.writeState fileId .queued] else [])
              if env.submitOk then
                (t2 ++ [UpEv.submitJob fileId], .ok fileId true)
              else
                (t2 ++ (if env.revertWriteOk
                  then [UpEv.writeState fileId .pending] else []),
                 .ok fileId false)

/-- The rows of the `files` and `file_blobs` tables that the upload
events touch. -/
structure MetaDb where
  files : List Nat
  blobs : List (Nat × Nat)
deriving DecidableEq, Repr

/-- Apply one upload event to the MySQL state.  `delete_file` runs
`DELETE FROM files WHERE id = %s`; the `file_blobs` row goes with it via
the schema's `ON DELETE CASCADE` foreign key. -/
def applyUpEv (db : MetaDb) : UpEv → MetaDb
  | .insertMeta id => { db with files := db.files ++ [id] }
  | .insertBlob fid bid => { db with blobs := db.blobs ++ [(fid, bid)] }
  | .deleteFileRow id =>
      { files := db.files.filter fun i => i != id,
        blobs := db.blobs.filter fun b => b.1 != id }
  | .writeState _ _ => db
  | .submitJob _ => db

def runUpEvs (db : MetaDb) (t : List UpEv) : MetaDb := t.foldl applyUpEv db

/-- C10 (amended): when `insert_file_blob` returns a falsy id without
raising and the rollback `delete_file` call does not raise, `upload_file`
deletes the just-created metadata row before raising `FileServiceError`,
leaving neither row behind; and on a successful blob insert both rows
exist afterwards whatever happens later in the call. -/
theorem upload_blob_rollback (filename : String) (env : UploadEnv) (fid : Nat)
    (hval : ¬(filename = "" ∨ 255 < filename.length))
    (hm : env.metaResult = .ret fid) (hf : fid ≠ 0) :
    (env.blobResult = .ret 0 → ∀ b, env.rollbackDelete = .ret b →
      (upload_file filename env).2 = .errBlob
      ∧ (runUpEvs ⟨[], []⟩ (upload_file filename env).1).files = []
      ∧ (runUpEvs ⟨[], []⟩ (upload_file filename env).1).blobs = [])
    ∧ (∀ bid, bid ≠ 0 → env.blobResult = .ret bid →
      fid ∈ (runUpEvs ⟨[], []⟩ (upload_file filename env).1).files
      ∧ (fid, bid) ∈ (runUpEvs ⟨[], []⟩ (upload_file filename env).1).blobs) := by
  constructor
  · intro hb b hr
    rw [upload_file, if_neg hval, hm]
    simp only [hf, if_neg hf, hb, hr, if_pos rfl]
    refine ⟨rfl, ?_, ?_⟩ <;> simp [runUpEvs, applyUpEv]
  · intro bid hbid hb
    rw [upload_file, if_neg hval, hm]
    simp only [if_neg hf, hb, if_neg hbid]
    cases hc : env.countResult with
    | ret n =>
      by_cases hn : 5 ≤ n
      · simp [hn, runUpEvs, applyUpEv]
      · cases hq : env.queuedWriteOk <;> cases hs : env.submitOk <;>
          cases hr : env.revertWriteOk <;> simp [hn, runUpEvs, applyUpEv]
    | raised =>
      cases hq : env.queuedWriteOk <;> cases hs : env.submitOk <;>
        cases hr : env.revertWriteOk <;> simp [runUpEvs, applyUpEv]

/-- Witness for `upload_blob_rollback`: a falsy blob insert with a
succeeding rollback removes the metadata row. -/
theorem upload_blob_rollback_witness :
    (upload_file "doc.pdf" ⟨.ret 1, .ret 0, .ret true, .ret 0, true, true, true⟩).2
        = UploadResult.errBlob
    ∧ (runUpEvs ⟨[], []⟩
        (upload_file "doc.pdf" ⟨.ret 1, .ret 0, .ret true, .ret 0, true, true, true⟩).1).files
        = [] :=
  ((upload_blob_rollback "doc.pdf" ⟨.ret 1, .ret 0, .ret true, .ret 0, true, true, true⟩ 1
      (by decide) rfl (by decide)).1 rfl true rfl).1.symm ▸
    ⟨((upload_blob_rollback "doc.pdf" ⟨.ret 1, .ret 0, .ret true, .ret 0, true, true, true⟩ 1
      (by decide) rfl (by decide)).1 rfl true rfl).1,
     ((upload_blob_rollback "doc.pdf" ⟨.ret 1, .ret 0, .ret true, .ret 0, true, true, true⟩ 1
      (by decide) rfl (by decide)).1 rfl true rfl).2.1⟩

/-- Counterexample to C10 as stated: when `insert_file_blob` itself
raises (the normal pymysql failure mode), `upload_file` propagates the
exception without any rollback and the metadata row created for the
upload survives, so it is not true that a blob-stage failure always
leaves no file record behind. -/
theorem upload_blob_raise_counterexample :
    (upload_file "doc.pdf" ⟨.ret 1, .raised, .ret true, .ret 0, true, true, true⟩).2
        = UploadResult.repoRaised
    ∧ (runUpEvs ⟨[], []⟩
        (upload_file "doc.pdf" ⟨.ret 1, .raised, .ret true, .ret 0, true, true, true⟩).1).files
        = [1] := by
  constructor <;> rfl

/-- C6: at `count(queued ∪ parsing) >= 5` the upload raises
`QueueFullError` with no `parsing_state` write and no job submission; a
failed count read is treated exactly as a count of zero (fail-open); and
when the upload is admitted, the `queued` state write is attempted (and,
when it succeeds, lands in the trace) before the job submission. -/
theorem upload_queue_admission (filename : String) (env : UploadEnv) (fid bid : Nat)
    (hval : ¬(filename = "" ∨ 255 < filename.length))
    (hm : env.metaResult = .ret fid) (hf : fid ≠ 0)
    (hb : env.blobResult = .ret bid) (hbid : bid ≠ 0) :
    (∀ n, env.countResult = .ret n → 5 ≤ n →
      upload_file filename env
        = ([UpEv.insertMeta fid, UpEv.insertBlob fid bid], .errQueueFull)
      ∧ (∀ i s, UpEv.writeState i s ∉ (upload_file filename env).1)
      ∧ (∀ i, UpEv.submitJob i ∉ (upload_file filename env).1))
    ∧ (env.countResult = .raised →
      upload_file filename env = upload_file filename { env with countResult := .ret 0 })
    ∧ (∀ n, env.countResult = .ret n → n < 5 →
      upload_file filename env
        = ([UpEv.insertMeta fid, UpEv.insertBlob fid bid]
            ++ (if env.queuedWriteOk then [UpEv.writeState fid .queued] else [])
            ++ (if env.submitOk then [UpEv.submitJob fid]
                else if env.revertWriteOk then [UpEv.writeState fid .pending] else []),
           .ok fid env.submitOk)) := by
  refine ⟨?_, ?_, ?_⟩
  · intro n hn h5
    rw [upload_file, if_neg hval, hm]
    simp only [if_neg hf, hb, if_neg hbid, hn, if_pos h5]
    exact ⟨rfl, by simp, by simp⟩
  · intro hn
    rw [upload_file, upload_file, if_neg hval, if_neg hval]
    simp [hm, hn]
  · intro n hn h5
    rw [upload_file, if_neg hval, hm]
    simp only [if_neg hf, hb, if_neg hbid, hn, if_neg (not_le.mpr h5)]
    cases hs : env.submitOk <;> cases hq : env.queuedWriteOk <;>
      cases hr : env.revertWriteOk <;> simp [hs, hq, hr]

/-- Witness for `upload_queue_admission`: with five files already queued
or parsing, a further upload is rejected with `QueueFullError` and a
trace containing no state write and no submission. -/
theorem upload_queue_admission_witness :
    upload_file "a.pdf" ⟨.ret 1, .ret 1, .ret true, .ret 5, true, true, true⟩
      = ([UpEv.insertMeta 1, UpEv.insertBlob 1 1], .errQueueFull) :=
  (((upload_queue_admission "a.pdf" ⟨.ret 1, .ret 1, .ret true, .ret 5, true, true, true⟩ 1 1
      (by decide) rfl (by decide) rfl (by decide)).1 5 rfl (by decide))).1

/-- The successful `parsing_state` writes of an upload trace, in order. -/
def stateWritesOf (t : List UpEv) : List PState :=
  t.filterMap fun e => match e with
    | .writeState _ s => some s
    | _ => none

/-- Whether the upload trace submitted the background parse job. -/
def submittedJob (t : List UpEv) : Bool :=
  t.any fun e => match e with
    | .submitJob _ => true
    | _ => false

/-- Whether the upload created a `files` row at all. -/
def insertedMeta (t : List UpEv) : Bool :=
  t.any fun e => match e with
    | .insertMeta _ => true
    | _ => false

/-- The sequence of `parsing_state` values a file's row goes through:
the schema default `pending` at row creation, the successful state
writes of the upload call, then — only if the job was submitted — the
successful state writes of the background parse job (which starts after
`upload_file` has performed its last state write).  An upload that never
created the row contributes no observable states. -/
def lifecycleStates (filename : String) (uenv : UploadEnv) (penv : ParseEnv) :
    List PState :=
  let t := (upload_file filename uenv).1
  if insertedMeta t then
    PState.pending :: stateWritesOf t
      ++ (if submittedJob t then (parse_file_text_and_save penv).stateWrites else [])
  else []

/-- C5: every observable state sequence of a file is a subsequence of
`pending, queued, parsing, done` or of `pending, queued, parsing,
failed`, or of `pending, queued, pending`; a `pending` write after
creation happens only when job submission failed, and in the clean
submission-failure run the sequence is exactly `pending, queued,
pending`. -/
theorem parsing_state_monotone (filename : String) (uenv : UploadEnv) (penv : ParseEnv) :
    (List.Sublist (lifecycleStates filename uenv penv)
        [PState.pending, PState.queued, PState.parsing, PState.done]
      ∨ List.Sublist (lifecycleStates filename uenv penv)
        [PState.pending, PState.queued, PState.parsing, PState.failed]
      ∨ List.Sublist (lifecycleStates filename uenv penv)
        [PState.pending, PState.queued, PState.pending])
    ∧ (uenv.submitOk = true →
        PState.pending ∉ stateWritesOf (upload_file filename uenv).1)
    ∧ (∀ fid bid n, ¬(filename = "" ∨ 255 < filename.length) →
        uenv.metaResult = .ret fid → fid ≠ 0 →
        uenv.blobResult = .ret bid → bid ≠ 0 →
        uenv.countResult = .ret n → n < 5 →
        uenv.queuedWriteOk = true → uenv.submitOk = false →
        uenv.revertWriteOk = true →
        lifecycleStates filename uenv penv
          = [PState.pending, PState.queued, PState.pending]) := by
  refine ⟨?_, ?_, ?_⟩
  · by_cases hval : filename = "" ∨ 255 < filename.length
    · left
      simp [lifecycleStates, upload_file, hval, insertedMeta]
    · cases hm : uenv.metaResult with
      | raised =>
        left
        simp [lifecycleStates, upload_file, hval, hm, insertedMeta]
      | ret fid =>
        by_cases hf : fid = 0
        · left
          simp [lifecycleStates, upload_file, hval, hm, hf, insertedMeta,
            stateWritesOf, submittedJob]
        · cases hb : uenv.blobResult with
          | raised =>
            left
            simp [lifecycleStates, upload_file, hval, hm, hf, hb, insertedMeta,
              stateWritesOf, submittedJob]
          | ret bid =>
            by_cases hbid : bid = 0
            · cases hr : uenv.rollbackDelete <;>
              · left
                simp [lifecycleStates, upload_file, hval, hm, hf, hb, hbid, hr,
                  insertedMeta, stateWritesOf, submittedJob]
            · cases hc : uenv.countResult with
              | ret n =>
                by_cases hn : 5 ≤ n
                · left
                  simp [lifecycleStates, upload_file, hval, hm, hf, hb, hbid, hc, hn,
                    insertedMeta, stateWritesOf, submittedJob]
                · cases hs : uenv.submitOk
                  · right; right
                    cases hq : uenv.queuedWriteOk <;> cases hrv : uenv.revertWriteOk <;>
                      simp [lifecycleStates, upload_file, hval, hm, hf, hb, hbid, hc,
                        hn, hs, hq, hrv, insertedMeta, stateWritesOf, submittedJob]
                  · rcases hx : penv.extraction with e | pages
                    · right; left
                      cases hq : uenv.queuedWriteOk <;> cases hpw : penv.parsingWriteOk <;>
                        cases hfw : penv.failedWriteOk <;>
                        simp [lifecycleStates, upload_file, hval, hm, hf, hb, hbid, hc,
                          hn, hs, hq, hpw, hfw, hx, insertedMeta, stateWritesOf,
                          submittedJob, parse_stateWrites]
                    · left
                      cases hq : uenv.queuedWriteOk <;> cases hpw : penv.parsingWriteOk <;>
                        cases hdw : penv.doneWriteOk <;>
                        simp [lifecycleStates, upload_file, hval, hm, hf, hb, hbid, hc,
                          hn, hs, hq, hpw, hdw, hx, insertedMeta, stateWritesOf,
                          submittedJob, parse_stateWrites]
              | raised =>
                cases hs : uenv.submitOk
                · right; right
                  cases hq : uenv.queuedWriteOk <;> cases hrv : uenv.revertWriteOk <;>
                    simp [lifecycleStates, upload_file, hval, hm, hf, hb, hbid, hc,
                      hs, hq, hrv, insertedMeta, stateWritesOf, submittedJob]
                · rcases hx : penv.extraction with e | pages
                  · right; left
                    cases hq : uenv.queuedWriteOk <;> cases hpw : penv.parsingWriteOk <;>
                      cases hfw : penv.failedWriteOk <;>
                      simp [lifecycleStates, upload_file, hval, hm, hf, hb, hbid, hc,
                        hs, hq, hpw, hfw, hx, insertedMeta, stateWritesOf,
                        submittedJob, parse_stateWrites]
                  · left
                    cases hq : uenv.queuedWriteOk <;> cases hpw : penv.parsingWriteOk <;>
                      cases hdw : penv.doneWriteOk <;>
                      simp [lifecycleStates, upload_file, hval, hm, hf, hb, hbid, hc,
                        hs, hq, hpw, hdw, hx, insertedMeta, stateWritesOf,
                        submittedJob, parse_stateWrites]
  · intro hs
    by_cases hval : filename = "" ∨ 255 < filename.length
    · simp [upload_file, hval, stateWritesOf]
    · cases hm : uenv.metaResult with
      | raised => simp [upload_file, hval, hm, stateWritesOf]
      | ret fid =>
        by_cases hf : fid = 0
        · simp [upload_file, hval, hm, hf, stateWritesOf]
        · cases hb : uenv.blobResult with
          | raised => simp [upload_file, hval, hm, hf, hb, stateWritesOf]
          | ret bid =>
            by_cases hbid : bid = 0
            · cases hr : uenv.rollbackDelete <;>
                simp [upload_file, hval, hm, hf, hb, hbid, hr, stateWritesOf]
            · cases hc : uenv.countResult with
              | ret n =>
                by_cases hn : 5 ≤ n
                · simp [upload_file, hval, hm, hf, hb, hbid, hc, hn, stateWritesOf]
                · cases hq : uenv.queuedWriteOk <;>
                    simp [upload_file, hval, hm, hf, hb, hbid, hc, hn, hs, hq,
                      stateWritesOf]
              | raised =>
                cases hq : uenv.queuedWriteOk <;>
                  simp [upload_file, hval, hm, hf, hb, hbid, hc, hs, hq, stateWritesOf]
  · intro fid bid n hval hm hf hb hbid hc hn hq hs hrv
    simp [lifecycleStates, upload_file, hval, hm, hf, hb, hbid, hc, not_le.mpr hn,
      hq, hs, hrv, insertedMeta, stateWritesOf, submittedJob]

/-- Witness for `parsing_state_monotone`: in the submission-failure run
the sequence is exactly `pending, queued, pending`. -/
theorem parsing_state_monotone_witness :
    lifecycleStates "a.pdf" ⟨.ret 1, .ret 1, .ret true, .ret 0, true, false, true⟩
      { parsingWriteOk := true, extraction := .ok [], textInsertOk := fun _ => true,
        vectorAvailable := true, vectorOutcome := fun _ => VecOutcome.retTrue,
        doneWriteOk := true, failedWriteOk := true }
      = [PState.pending, PState.queued, PState.pending] :=
  (parsing_state_monotone "a.pdf" ⟨.ret 1, .ret 1, .ret true, .ret 0, true, false, true⟩
      _).2.2 1 1 0 (by decide) rfl (by decide) rfl (by decide) rfl (by decide) rfl rfl rfl

/-! ## OCR loop (`file_text_parser.py`, `parse_document_via_ocr`, lines 128-200)

Outcome of one `ocr_reader.readtext` call: the `detail=0` word list, a
`RuntimeError` (whose message contains "CUDA" or "out of memory" iff
`isCudaOom`), or an exception of another class. -/
inductive OcrAttempt
  | ok (words : List String)
  | runtimeError (isCudaOom : Bool)
  | otherError
deriving DecidableEq, Repr

/-- The OCR environment: what `readtext` does on a given page with a
reader of the given GPU-ness (`isRetry` distinguishes the in-handler
retry call from the first call), and whether `easyocr.Reader(gpu=...)`
construction succeeds. -/
structure OcrEnv where
  attempt : Nat → Bool → Bool → OcrAttempt
  initOk : Bool → Bool

/-- The class-level (process-wide) state of `DocumentProcessor`:
`_use_gpu` and `_ocr_reader` (`some g` = a reader initialized with
`gpu=g`, `none` = not initialized). -/
structure OcrClassState where
  useGpu : Bool
  reader : Option Bool
deriving DecidableEq, Repr

/-- `_get_ocr_reader` (lines 36-47): return the cached reader, else
construct one with the current `_use_gpu`; a constructor failure is
re-raised. -/
def getOcrReader (env : OcrEnv) (s : OcrClassState) :
    Except Unit (Bool × OcrClassState) :=
  match s.reader with
  | some g => .ok (g, s)
  | none =>
    if env.initOk s.useGpu then .ok (s.useGpu, { s with reader := some s.useGpu })
    else .error ()

/-- `" ".join(result)` followed by `.strip()`. -/
def joinStrip (ws : List String) : String := (String.intercalate " " ws).trim

/-- The loop body for one page (lines 151-192).  On success the joined,
stripped text is recorded.  On a `RuntimeError` matching the CUDA/OOM
test: GPU memory is cleared (the returned flag), then — only if the
class is still on the GPU path — `_use_gpu` is set to `False` and the
reader discarded and reinitialized (a reinitialization failure
propagates), and the one page is retried with the (possibly new) reader;
any exception in the retry records the empty string.  A `RuntimeError`
not matching the test, or any other exception class, propagates.
Returns the class state, the local `ocr_reader` variable's GPU-ness, the
recorded text, and whether `_clear_gpu_memory` ran. -/
def processPage (env : OcrEnv) (i : Nat) (cls : OcrClassState) (readerGpu : Bool) :
    Except Unit (OcrClassState × Bool × String × Bool) :=
  match env.attempt i readerGpu false with
  | .ok ws => .ok (cls, readerGpu, joinStrip ws, false)
  | .otherError => .error ()
  | .runtimeError isOom =>
    if isOom then
      match (if cls.useGpu then getOcrReader env { useGpu := false, reader := none }
             else .ok (readerGpu, cls)) with
      | .error _ => .error ()
      | .ok (r', cls') =>
        match env.attempt i r' true with
        | .ok ws => .ok (cls', r', joinStrip ws, true)
        | .runtimeError _ => .ok (cls', r', "", true)
        | .otherError => .ok (cls', r', "", true)
    else .error ()

/-- The page loop of `parse_document_via_ocr`: process the given page
numbers in order, threading the class state and the local reader
variable; the collected `(page, text)` pairs mirror `ocr_texts`. -/
def ocrPagesLoop (env : OcrEnv) :
    List Nat → OcrClassState → Bool →
      Except Unit (OcrClassState × Bool × List (Nat × String))
  | [], cls, rg => .ok (cls, rg, [])
  | i :: rest, cls, rg =>
    match processPage env i cls rg with
    | .error _ => .error ()
    | .ok (cls', rg', text, _) =>
      match ocrPagesLoop env rest cls' rg' with
      | .error _ => .error ()
      | .ok (cls'', rg'', acc) => .ok (cls'', rg'', (i, text) :: acc)

/-- `parse_document_via_ocr` (lines 128-200): convert the document to
images (`toImagesResult` is the oracle for `_to_images`, giving the page
count or raising), fetch the reader, return the empty dict if there are
no images, else run the OCR loop over pages `1..n`; any uncaught
exception propagates to the caller. -/
def parse_document_via_ocr (env : OcrEnv) (toImagesResult : Except Unit Nat)
    (cls : OcrClassState) : Except Unit (OcrClassState × List (Nat × String)) :=
  match toImagesResult with
  | .error _ => .error ()
  | .ok n =>
    match getOcrReader env cls with
    | .error _ => .error ()
    | .ok (rg, cls1) =>
      if n = 0 then .ok (cls1, [])
      else
        match ocrPagesLoop env ((List.range n).map (· + 1)) cls1 rg with
        | .error _ => .error ()
        | .ok (cls2, _, texts) => .ok (cls2, texts)

/-- A page step never turns `_use_gpu` back on. -/
lemma processPage_gpu_mono {env : OcrEnv} {i : Nat} {cls : OcrClassState}
    {rg : Bool} {out : OcrClassState × Bool × String × Bool}
    (h : processPage env i cls rg = .ok out) (hg : out.1.useGpu = true) :
    cls.useGpu = true := by
  unfold processPage at h
  cases hA : env.attempt i rg false with
  | ok ws =>
    rw [hA] at h
    cases h
    exact hg
  | otherError => rw [hA] at h; cases h
  | runtimeError isOom =>
    rw [hA] at h
    cases isOom with
    | false => simp at h
    | true =>
      simp only [if_pos rfl, if_true] at h
      cases hg' : cls.useGpu with
      | true => rfl
      | false =>
        rw [hg'] at h
        simp only [Bool.false_eq_true, if_false] at h
        cases hB : env.attempt i rg true <;> rw [hB] at h <;> cases h <;>
          rw [← hg] <;> rw [hg']

/-- The whole page loop never turns `_use_gpu` back on. -/
lemma ocrPagesLoop_gpu_mono {env : OcrEnv} {pages : List Nat}
    {cls : OcrClassState} {rg : Bool}
    {out : OcrClassState × Bool × List (Nat × String)}
    (h : ocrPagesLoop env pages cls rg = .ok out) (hg : out.1.useGpu = true) :
    cls.useGpu = true := by
  induction pages generalizing cls rg out with
  | nil =>
    cases h
    exact hg
  | cons i rest ih =>
    unfold ocrPagesLoop at h
    cases hp : processPage env i cls rg with
    | error e => rw [hp] at h; cases h
    | ok mid =>
      rw [hp] at h
      obtain ⟨cls', rg', text, flag⟩ := mid
      cases hl : ocrPagesLoop env rest cls' rg' with
      | error e => simp only [hl] at h; cases h
      | ok tail =>
        simp only [hl] at h
        obtain ⟨cls'', rg'', acc⟩ := tail
        cases h
        exact processPage_gpu_mono hp (ih hl hg)

/-- C8: a resource-exhaustion `RuntimeError` on a page while the
accelerated path is in use makes the loop clear accelerator memory,
demote the process-wide state to the CPU path with a freshly
reinitialized CPU reader, and retry that one page on the CPU reader —
recording the empty string instead of failing if the retry raises — and
no later step of any page loop ever re-enables the GPU path. -/
theorem ocr_oom_demotes_permanently :
    (∀ (env : OcrEnv) (i : Nat) (cls : OcrClassState) (rg : Bool),
      cls.useGpu = true → env.attempt i rg false = .runtimeError true →
      env.initOk false = true →
      processPage env i cls rg = .ok (⟨false, some false⟩, false,
        (match env.attempt i false true with
         | .ok ws => joinStrip ws
         | .runtimeError _ => ""
         | .otherError => ""), true))
    ∧ (∀ (env : OcrEnv) (pages : List Nat) (cls : OcrClassState) (rg : Bool)
        (out : OcrClassState × Bool × List (Nat × String)),
      ocrPagesLoop env pages cls rg = .ok out →
      cls.useGpu = false → out.1.useGpu = false) := by
  constructor
  · intro env i cls rg hgpu hA hinit
    unfold processPage
    rw [hA]
    simp only [if_pos rfl, hgpu, if_true, getOcrReader, hinit]
    cases hB : env.attempt i false true <;> simp [hB]
  · intro env pages cls rg out h hg
    cases ho : out.1.useGpu with
    | false => rfl
    | true => rw [ocrPagesLoop_gpu_mono h ho] at hg; cases hg

/-- Witness for `ocr_oom_demotes_permanently`: a GPU OOM on page 1 whose
CPU retry also raises demotes the processor and records "" for the
page. -/
theorem ocr_oom_demotes_permanently_witness :
    processPage
      { attempt := fun _ gpu isRetry =>
          if gpu then OcrAttempt.runtimeError true
          else if isRetry then OcrAttempt.otherError else OcrAttempt.ok ["w"],
        initOk := fun _ => true }
      1 ⟨true, some true⟩ true
      = .ok (⟨false, some false⟩, false, "", true) :=
  (ocr_oom_demotes_permanently.1
    { attempt := fun _ gpu isRetry =>
        if gpu then OcrAttempt.runtimeError true
        else if isRetry then OcrAttempt.otherError else OcrAttempt.ok ["w"],
      initOk := fun _ => true }
    1 ⟨true, some true⟩ true rfl rfl rfl)

/-! ## Concurrent admission (C7)

`upload_file` performs admission control in two separate repository
calls: `count_parsing_queue()` (a `SELECT COUNT(*) ... WHERE
parsing_state IN ('queued','parsing')`) and, if the saved count is below
`MAX_QUEUE = 5`, `update_parsing_state(file_id, 'queued')`.  Between a
caller's read and its write, other callers' reads and writes can
interleave.  The shared state is the `files` table (as the list of its
rows' parsing states) plus each caller's saved `current_queue` local. -/

def stateFlag (s : PState) : Nat :=
  if s = PState.queued ∨ s = PState.parsing then 1 else 0

/-- `count_parsing_queue`: the number of rows whose `parsing_state` is
`queued` or `parsing`. -/
def queueCount : List PState → Nat
  | [] => 0
  | s :: rest => stateFlag s + queueCount rest

structure AdmSys where
  files : List PState
  snapshots : List (Option Nat)
deriving DecidableEq, Repr

/-- The interleavable primitive steps: a caller's count read (successful,
or raising with the fail-open to 0 of lines 68-72), a caller's
check-and-write (lines 74-81: reject at `count >= 5`, else the `queued`
write — the newly admitted file's row joins the count), and the worker
transitions on a file's row (`parsing` at job start, `done`/`failed` at
the end, the `pending` revert when submission fails). -/
inductive AdmStep
  | readCount (c : Nat)
  | readCountFails (c : Nat)
  | acceptWrite (c : Nat)
  | startParsing (i : Nat)
  | finishJob (i : Nat) (ok : Bool)
  | revertQueued (i : Nat)
deriving DecidableEq, Repr

def applyAdmStep (sys : AdmSys) : AdmStep → AdmSys
  | .readCount c =>
    { sys with snapshots := sys.snapshots.set c (some (queueCount sys.files)) }
  | .readCountFails c =>
    { sys with snapshots := sys.snapshots.set c (some 0) }
  | .acceptWrite c =>
    match sys.snapshots.get? c with
    | some (some n) =>
      if 5 ≤ n then { sys with snapshots := sys.snapshots.set c none }
      else { files := sys.files ++ [PState.queued],
             snapshots := sys.snapshots.set c none }
    | _ => sys
  | .startParsing i =>
    if sys.files.get? i = some PState.queued
    then { sys with files := sys.files.set i PState.parsing } else sys
  | .finishJob i ok =>
    if sys.files.get? i = some PState.parsing
    then { sys with files := sys.files.set i (if ok then PState.done else PState.failed) }
    else sys
  | .revertQueued i =>
    if sys.files.get? i = some PState.queued
    then { sys with files := sys.files.set i PState.pending } else sys

/-- Every intermediate state of a run, initial state included. -/
def admStatesAlong (sys : AdmSys) : List AdmStep → List AdmSys
  | [] => [sys]
  | st :: rest => sys :: admStatesAlong (applyAdmStep sys st) rest

/-- An admission whose count read and queued write execute back to back
with nothing interleaved — the atomic check-and-increment the
specification calls for — together with the worker transitions. -/
inductive AtomicOp
  | tryAccept (c : Nat)
  | startParsing (i : Nat)
  | finishJob (i : Nat) (ok : Bool)
  | revertQueued (i : Nat)
deriving DecidableEq, Repr

def expandAtomic : List AtomicOp → List AdmStep
  | [] => []
  | .tryAccept c :: rest => .readCount c :: .acceptWrite c :: expandAtomic rest
  | .startParsing i :: rest => .startParsing i :: expandAtomic rest
  | .finishJob i ok :: rest => .finishJob i ok :: expandAtomic rest
  | .revertQueued i :: rest => .revertQueued i :: expandAtomic rest

/-- Counterexample to C7 as stated: with four files already queued
(limit 5), two concurrent uploads that both read the count before either
writes are both admitted, and the queued/parsing count reaches 6 > 5. -/
theorem admission_bound_counterexample :
    5 < queueCount ((List.foldl applyAdmStep
      ⟨List.replicate 4 PState.queued, [none, none]⟩
      [AdmStep.readCount 0, AdmStep.readCount 1,
       AdmStep.acceptWrite 0, AdmStep.acceptWrite 1]).files) := by
  decide

lemma queueCount_append (l1 l2 : List PState) :
    queueCount (l1 ++ l2) = queueCount l1 + queueCount l2 := by
  induction l1 with
  | nil => simp [queueCount]
  | cons x xs ih => simp [queueCount, ih]; omega

lemma queueCount_set {l : List PState} {i : Nat} {a : PState} (b : PState)
    (h : l.get? i = some a) :
    queueCount (l.set i b) + stateFlag a = queueCount l + stateFlag b := by
  induction l generalizing i with
  | nil => cases h
  | cons x xs ih =>
    cases i with
    | zero =>
      rw [List.get?] at h
      injection h with h
      subst h
      simp [List.set, queueCount]
      omega
    | succ j =>
      rw [List.get?] at h
      have := ih h
      simp [List.set, queueCount]
      omega

lemma get?_set_self (l : List (Option Nat)) (c : Nat) (v : Option Nat) :
    (l.set c v).get? c = if c < l.length then some v else none := by
  induction l generalizing c with
  | nil => simp [List.set]
  | cons x xs ih =>
    cases c with
    | zero => simp [List.set]
    | succ j => simpa [List.set, Nat.succ_lt_succ_iff] using ih j

/-- Worker transitions and count reads never increase the
queued/parsing count. -/
lemma queueCount_step_le (sys : AdmSys) (st : AdmStep)
    (h : queueCount sys.files ≤ 5) (hna : ∀ c, st ≠ AdmStep.acceptWrite c) :
    queueCount (applyAdmStep sys st).files ≤ 5 := by
  cases st with
  | readCount c => exact h
  | readCountFails c => exact h
  | acceptWrite c => exact absurd rfl (hna c)
  | startParsing i =>
    simp only [applyAdmStep]
    by_cases hq : sys.files.get? i = some PState.queued
    · rw [if_pos hq]
      show queueCount (sys.files.set i PState.parsing) ≤ 5
      have := queueCount_set PState.parsing hq
      simp [stateFlag] at this
      omega
    · rw [if_neg hq]; exact h
  | finishJob i ok =>
    simp only [applyAdmStep]
    by_cases hq : sys.files.get? i = some PState.parsing
    · rw [if_pos hq]
      show queueCount (sys.files.set i (if ok then PState.done else PState.failed)) ≤ 5
      have := queueCount_set (if ok then PState.done else PState.failed) hq
      cases ok <;> simp [stateFlag] at this ⊢ <;> omega
    · rw [if_neg hq]; exact h
  | revertQueued i =>
    simp only [applyAdmStep]
    by_cases hq : sys.files.get? i = some PState.queued
    · rw [if_pos hq]
      show queueCount (sys.files.set i PState.pending) ≤ 5
      have := queueCount_set PState.pending hq
      simp [stateFlag] at this
      omega
    · rw [if_neg hq]; exact h

/-- An uninterrupted read-check-write admission preserves the bound: the
count written against is the count that still holds at write time. -/
lemma queueCount_pair_le (sys : AdmSys) (c : Nat)
    (h : queueCount sys.files ≤ 5) :
    queueCount ((applyAdmStep (applyAdmStep sys (AdmStep.readCount c))
      (AdmStep.acceptWrite c)).files) ≤ 5 := by
  simp only [applyAdmStep]
  rw [get?_set_self]
  by_cases hc : c < sys.snapshots.length
  · rw [if_pos hc]
    by_cases h5 : 5 ≤ queueCount sys.files
    · simp only [h5, if_true]
      exact h
    · simp only [h5, if_false]
      rw [queueCount_append]
      simp [queueCount, stateFlag]
      omega
  · rw [if_neg hc]
    exact h

/-- C7 (amended): if every admission executes its count read and queued
write atomically (no other caller's step interleaves between them) and
count reads succeed, then at every instant of every schedule the number
of files in `{queued, parsing}` stays at most 5, provided it starts at
most 5. -/
theorem admission_bound_atomic (ops : List AtomicOp) (sys : AdmSys)
    (hinv : queueCount sys.files ≤ 5) :
    ∀ s ∈ admStatesAlong sys (expandAtomic ops), queueCount s.files ≤ 5 := by
  induction ops generalizing sys with
  | nil =>
    intro s hs
    simp [expandAtomic, admStatesAlong] at hs
    subst hs
    exact hinv
  | cons op rest ih =>
    intro s hs
    cases op with
    | tryAccept c =>
      simp only [expandAtomic, admStatesAlong, List.mem_cons] at hs
      rcases hs with rfl | rfl | hs
      · exact hinv
      · exact hinv
      · exact ih _ (queueCount_pair_le sys c hinv) s hs
    | startParsing i =>
      simp only [expandAtomic, admStatesAlong, List.mem_cons] at hs
      rcases hs with rfl | hs
      · exact hinv
      · exact ih _ (queueCount_step_le sys _ hinv (by intro c h; cases h)) s hs
    | finishJob i ok =>
      simp only [expandAtomic, admStatesAlong, List.mem_cons] at hs
      rcases hs with rfl | hs
      · exact hinv
      · exact ih _ (queueCount_step_le sys _ hinv (by intro c h; cases h)) s hs
    | revertQueued i =>
      simp only [expandAtomic, admStatesAlong, List.mem_cons] at hs
      rcases hs with rfl | hs
      · exact hinv
      · exact ih _ (queueCount_step_le sys _ hinv (by intro c h; cases h)) s hs

/-- Witness for `admission_bound_atomic`: two back-to-back atomic
admissions starting from four queued files stop at the bound — the final
state of that schedule (one admission accepted, one rejected) satisfies
it. -/
theorem admission_bound_atomic_witness :
    queueCount (AdmSys.files
      ⟨List.replicate 4 PState.queued ++ [PState.queued], [none, none]⟩) ≤ 5 :=
  admission_bound_atomic [AtomicOp.tryAccept 0, AtomicOp.tryAccept 1]
    ⟨List.replicate 4 PState.queued, [none, none]⟩ (by decide)
    ⟨List.replicate 4 PState.queued ++ [PState.queued], [none, none]⟩ (by decide)

end BiBackend
